import Mathlib

/-!
Verification of the chat-session and streaming-protocol engine of
`cleverly_web.py` (repository `agam1233/cleverly-development`).

The Python module is shallowly embedded below: each Lean definition mirrors
one function or inline block of the source, keeping the source's names where
Lean allows it.  Python dicts that are used as ordered maps (`CHAT_SESSIONS`)
become association lists that preserve insertion order, mirroring the
insertion-order semantics of Python dicts; wall-clock times (`time.time()`)
become `Nat` parameters supplied by the caller; `uuid.uuid4()` becomes a
`fresh` string parameter supplied by the caller.
-/

namespace Cleverly

/-- Message roles: the `"system"` / `"user"` / `"assistant"` strings used in
the `{"role": ..., "content": ...}` dicts of the source. -/
inductive Role where
  | system
  | user
  | assistant
deriving DecidableEq, Repr

/-- One chat message, `{"role": r, "content": c}` in the source. -/
structure Message where
  role : Role
  content : String
deriving DecidableEq, Repr

/-- `MAX_HISTORY_MESSAGES = 24` in the source. -/
def MAX_HISTORY_MESSAGES : Nat := 24

/-- `MAX_SESSIONS = 200` in the source. -/
def MAX_SESSIONS : Nat := 200

/-- `MAX_PROMPT_LENGTH = 6000` in the source. -/
def MAX_PROMPT_LENGTH : Nat := 6000

/-- `MAX_SYSTEM_PROMPT_LENGTH = 4000` in the source. -/
def MAX_SYSTEM_PROMPT_LENGTH : Nat := 4000

/-- `trim_history(messages)` from the source:

```
if len(messages) <= MAX_HISTORY_MESSAGES:
    return
del messages[:-MAX_HISTORY_MESSAGES]
while messages and messages[0].get("role") == "assistant":
    messages.pop(0)
```

`del messages[:-k]` keeps the last `k` elements, i.e. drops
`len - k` from the front; the `while` loop is `dropWhile`.  The Python
function mutates in place; we return the new list. -/
def trim_history (messages : List Message) : List Message :=
  if messages.length ≤ MAX_HISTORY_MESSAGES then messages
  else
    (messages.drop (messages.length - MAX_HISTORY_MESSAGES)).dropWhile
      (fun m => m.role == Role.assistant)

/-- Whether a history begins with an assistant message (the condition of the
`while` loop of `trim_history`, applied to the head only). -/
def starts_with_assistant : List Message → Bool
  | [] => false
  | m :: _ => m.role == Role.assistant

/-- Python `str.strip()` on a list of characters: drop whitespace from both
ends.  (CPython strips Unicode whitespace; every string handled by the
claims is built from the ASCII whitespace characters that
`Char.isWhitespace` covers.) -/
def pyStripList (l : List Char) : List Char :=
  ((l.dropWhile Char.isWhitespace).reverse.dropWhile Char.isWhitespace).reverse

/-- Python `str.strip()` on a `String`. -/
def pyStrip (s : String) : String := String.mk (pyStripList s.toList)

/-- Python `value.replace("\r\n", "\n")`: a left-to-right non-overlapping
scan replacing each CRLF pair with a single LF. -/
def replaceCRLF : List Char → List Char
  | [] => []
  | '\r' :: '\n' :: rest => '\n' :: replaceCRLF rest
  | c :: rest => c :: replaceCRLF rest

/-- `normalize_text(value, max_len)` from the source:
normalize CRLF to LF, strip, then truncate to `max_len` characters.
(`value is None` cannot occur for the string-typed call sites modelled
here.) -/
def normalize_text (value : String) (max_len : Nat) : String :=
  let text := String.mk (pyStripList (replaceCRLF value.toList))
  if max_len < text.length then String.mk (text.toList.take max_len) else text

/-- CPython's `str.isalnum` is Unicode-aware: it accepts every Unicode
letter, digit, and numeric character, not only ASCII.  We model it exactly
on the ASCII range, together with the non-ASCII character exercised by the
theorems below: `'é'` (U+00E9) is a Unicode letter, so Python's
`'é'.isalnum()` is `True`. -/
def py_isalnum (c : Char) : Bool :=
  c.isAlphanum || c == 'é'

/-- `sanitize_chat_id(value)` with `create_if_empty=True` (the `/chat`
path).  `fresh` stands for the `str(uuid.uuid4())` the source generates;
uuid4 strings are 36 characters of `[0-9a-f-]`, never empty. -/
def sanitize_chat_id (value : String) (fresh : String) : String :=
  let raw := pyStrip value
  if raw = "" then fresh
  else
    let safe := String.mk
      (raw.toList.filter (fun c => py_isalnum c || c == '-' || c == '_'))
    if safe = "" then fresh
    else String.mk (safe.toList.take 64)

/-- One entry of `CHAT_SESSIONS`:
`{"messages": [...], "last_user": "...", "last_seen": t}`.
`last_seen` is a `time.time()` value, modelled as `Nat`. -/
structure Session where
  messages : List Message
  last_user : String
  last_seen : Nat
deriving DecidableEq, Repr

/-- `CHAT_SESSIONS`: a Python dict, i.e. an insertion-ordered map from chat
id to session state, modelled as an association list with distinct keys. -/
abbrev Store := List (String × Session)

/-- The dict `{"messages": [], "last_user": "", "last_seen": now}` that both
`setdefault` call sites create. -/
def fresh_session (now : Nat) : Session := ⟨[], "", now⟩

/-- The sort key of `cleanup_sessions_unlocked`:
`key=lambda item: item[1].get("last_seen", 0.0)` (ascending). -/
def session_le (a b : String × Session) : Bool :=
  decide (a.2.last_seen ≤ b.2.last_seen)

/-- `CHAT_SESSIONS.pop(chat_id, None)`: remove the (unique) entry with the
given key, if present. -/
def erase_session (store : Store) (cid : String) : Store :=
  store.eraseP (fun item => item.1 == cid)

/-- `cleanup_sessions_unlocked()` from the source: if the store holds more
than `MAX_SESSIONS` entries, sort the entries by `last_seen` ascending
(Python's `sorted` is stable, as is `List.mergeSort`) and pop the first
`len - MAX_SESSIONS` of them. -/
def cleanup_sessions_unlocked (store : Store) : Store :=
  if store.length ≤ MAX_SESSIONS then store
  else
    let oldest := store.mergeSort session_le
    let drop_count := store.length - MAX_SESSIONS
    ((oldest.take drop_count).map Prod.fst).foldl erase_session store

/-- `CHAT_SESSIONS[chat_id]`, as an option. -/
def lookup_session (store : Store) (cid : String) : Option Session :=
  (store.find? (fun it => it.1 == cid)).map Prod.snd

/-- `CHAT_SESSIONS.setdefault(chat_id, {...})`: keep an existing entry, or
insert a fresh one at the end (Python dicts append new keys in insertion
order). -/
def setdefault_session (store : Store) (cid : String) (now : Nat) : Store :=
  if store.any (fun it => it.1 == cid) then store
  else store ++ [(cid, fresh_session now)]

/-- Writing back the mutated session object: in Python the handler mutates
the dict obtained from `setdefault` in place, so the store reflects the
mutation exactly when the key is still present. -/
def set_session (store : Store) (cid : String) (s : Session) : Store :=
  store.map (fun it => if it.1 == cid then (it.1, s) else it)

/-- The regenerate/append block of `stream()` (lines 183-197 of the
source), acting on one session.  Returns the updated session and the
effective prompt (the local variable `prompt` after the block). -/
def regen_or_append (state : Session) (prompt0 : String) (regenerate : Bool) :
    Session × String :=
  if regenerate then
    let msgs1 :=
      match state.messages.getLast? with
      | some m =>
          if m.role == Role.assistant then state.messages.dropLast
          else state.messages
      | none => state.messages
    let prompt := if prompt0 = "" then state.last_user else prompt0
    if prompt = "" then ({ state with messages := msgs1 }, prompt)
    else
      let need_append :=
        match msgs1.getLast? with
        | none => true
        | some m => !(m.role == Role.user) || !(m.content == prompt)
      let msgs2 := if need_append then msgs1 ++ [⟨Role.user, prompt⟩] else msgs1
      ({ state with messages := msgs2, last_user := prompt }, prompt)
  else
    if prompt0 = "" then (state, prompt0)
    else
      ({ state with
          messages := state.messages ++ [⟨Role.user, prompt0⟩],
          last_user := prompt0 }, prompt0)

/-- The locked section of `stream()` (lines 175-200): get-or-create the
session, refresh `last_seen`, run the eviction check, apply the
regenerate/append logic, trim.  Returns the updated store, the session
object the handler keeps referring to, and the effective prompt. -/
def stream_turn (store : Store) (cid prompt0 : String) (regenerate : Bool)
    (now : Nat) : Store × Session × String :=
  let store1 := setdefault_session store cid now
  let state0 := (lookup_session store1 cid).getD (fresh_session now)
  let state1 := { state0 with last_seen := now }
  let store2 := cleanup_sessions_unlocked (set_session store1 cid state1)
  let res := regen_or_append state1 prompt0 regenerate
  let state3 := { res.1 with messages := trim_history res.1.messages }
  (set_session store2 cid state3, state3, res.2)

/-- The commit block of `generate()` (lines 248-255): get-or-create the
live session, append the assistant reply, refresh `last_seen`, re-trim.
Note that, unlike the request path, this block does not run
`cleanup_sessions_unlocked`. -/
def commit_assistant (store : Store) (cid text : String) (now : Nat) : Store :=
  let store1 := setdefault_session store cid now
  let live := (lookup_session store1 cid).getD (fresh_session now)
  set_session store1 cid
    { live with
        messages := trim_history (live.messages ++ [⟨Role.assistant, text⟩]),
        last_seen := now }

/-- The four payload shapes the source ever passes to `sse`:
`{"meta": {"chat_id": ..., "model": ...}}` (stream start),
`{"content": ...}` (one fragment),
`{"done": True, "meta": {"elapsed_ms": ..., "approx_tokens": ..., "chat_id": ...}}`
(successful completion), and `{"error": ..., "done": True}` (validation or
backend error). -/
inductive Payload where
  | metaStart (chat_id model : String)
  | content (text : String)
  | doneMeta (elapsed_ms approx_tokens : Nat) (chat_id : String)
  | errorDone (message : String)
deriving DecidableEq, Repr

/-- Escaping of one character inside a JSON string literal, as
`json.dumps(..., ensure_ascii=False)` performs it: the two mandatory
escapes, the short escapes for the common control characters, `\uXXXX` for
the remaining control characters, everything else verbatim. -/
def jsonEscapeChar (c : Char) : List Char :=
  if c = '"' then ['\\', '"']
  else if c = '\\' then ['\\', '\\']
  else if c = '\n' then ['\\', 'n']
  else if c = '\r' then ['\\', 'r']
  else if c = '\t' then ['\\', 't']
  else if c = '\x08' then ['\\', 'b']
  else if c = '\x0c' then ['\\', 'f']
  else if c.toNat < 32 then
    ['\\', 'u', '0', '0', Nat.digitChar (c.toNat / 16), Nat.digitChar (c.toNat % 16)]
  else [c]

/-- A JSON string literal for `s`, per `json.dumps(s, ensure_ascii=False)`. -/
def jsonString (s : String) : String :=
  "\"" ++ String.mk (s.toList.map jsonEscapeChar).flatten ++ "\""

/-- `json.dumps` of each payload dict, with the key order and the
`", "` / `": "` separators `json.dumps` uses on these dicts. -/
def renderPayload : Payload → String
  | .metaStart cid model =>
      "\x7b\"meta\": \x7b\"chat_id\": " ++ jsonString cid ++
        ", \"model\": " ++ jsonString model ++ "\x7d\x7d"
  | .content t => "\x7b\"content\": " ++ jsonString t ++ "\x7d"
  | .doneMeta e a cid =>
      "\x7b\"done\": true, \"meta\": \x7b\"elapsed_ms\": " ++ Nat.repr e ++
        ", \"approx_tokens\": " ++ Nat.repr a ++
        ", \"chat_id\": " ++ jsonString cid ++ "\x7d\x7d"
  | .errorDone m => "\x7b\"error\": " ++ jsonString m ++ ", \"done\": true\x7d"

/-- `sse(payload)` from the source:
`f"data: \x7bjson.dumps(payload, ensure_ascii=False)\x7d\n\n"`. -/
def sse (payload : Payload) : String :=
  "data: " ++ renderPayload payload ++ "\n\n"

/-- The payload carries a `"content"` key. -/
def hasContent : Payload → Bool
  | .content _ => true
  | _ => false

/-- The payload carries a `"meta"` key. -/
def hasMeta : Payload → Bool
  | .metaStart _ _ => true
  | .doneMeta _ _ _ => true
  | _ => false

/-- The payload carries an `"error"` key. -/
def hasError : Payload → Bool
  | .errorDone _ => true
  | _ => false

/-- The payload carries a `"done"` key. -/
def hasDone : Payload → Bool
  | .doneMeta _ _ _ => true
  | .errorDone _ => true
  | _ => false

/-- How many of the three "kind" keys (`content`, `meta`, `error`) the
payload populates. -/
def kind_count (p : Payload) : Nat :=
  (if hasContent p then 1 else 0) + (if hasMeta p then 1 else 0) +
    (if hasError p then 1 else 0)

/-- The validation-error message of the source. -/
def EMPTY_MSG : String :=
  "Message is empty. Provide text or regenerate an existing response."

/-- `DEFAULT_SYSTEM_PROMPT` from the source. -/
def DEFAULT_SYSTEM_PROMPT : String :=
  "You are Cleverly, a calm and helpful AI assistant. " ++
    "Answer clearly and concisely. Use short paragraphs and practical examples when useful."

/-- `MODEL_CHOICES`, restricted to the `"id"` field (the labels play no
role in the claims). -/
def MODEL_CHOICES : List (String × String) :=
  [("normal", "qwen3:8b"), ("balanced", "llama3:8b"), ("fast", "ministral-3:3b")]

/-- `MODEL_CHOICES.get(model_key, MODEL_CHOICES["normal"])["id"]`. -/
def model_id_for (key : String) : String :=
  match MODEL_CHOICES.find? (fun it => it.1 == key) with
  | some it => it.2
  | none => "qwen3:8b"

/-- What the `/chat` handler does once the locked section has run: either
it answers with the `empty_stream` response and never calls the backend
(`ChatResult.noBackend`), or it hands the backend a model name and a
message list (`ChatResult.callBackend`). -/
inductive ChatResult where
  | noBackend (units : List Payload)
  | callBackend (model_name : String) (messages : List Message) (chat_id : String)
deriving DecidableEq, Repr

/-- The `/chat` handler `stream()` up to (and excluding) the backend call:
parameter normalization, the locked session mutation, and the
empty-prompt validation.  `fresh` stands for the uuid4 the source would
generate for an id that sanitizes to empty; `now` for `time.time()`. -/
def handle_chat (store : Store) (chat_id_raw fresh model_key_raw system_prompt_raw msg : String)
    (regenerate : Bool) (now : Nat) : Store × ChatResult :=
  let cid := sanitize_chat_id chat_id_raw fresh
  let mk0 := normalize_text model_key_raw 32
  let model_name := model_id_for (if mk0 = "" then "normal" else mk0)
  let sp0 := normalize_text system_prompt_raw MAX_SYSTEM_PROMPT_LENGTH
  let system_prompt := if sp0 = "" then DEFAULT_SYSTEM_PROMPT else sp0
  let prompt0 := normalize_text msg MAX_PROMPT_LENGTH
  let result := stream_turn store cid prompt0 regenerate now
  if result.2.2 = "" then
    (result.1, ChatResult.noBackend [Payload.errorDone EMPTY_MSG])
  else
    (result.1,
      ChatResult.callBackend model_name
        (⟨Role.system, system_prompt⟩ :: (result.2.1).messages) cid)

/-- How one backend streaming call ends: the fragment iterator finishes on
its own, or some exception is raised after the listed fragments were
yielded. -/
inductive BackendOutcome where
  | ok
  | fail (message : String)
deriving DecidableEq, Repr

/-- The `generate()` generator of the source, for a backend call that
yields the extracted contents `frags` (fragments with no extractable
content are modelled as `""`, which the loop skips via `continue`) and then
either finishes (`ok`) or raises (`fail e`).  Returns the emitted payloads
in order and the store after the run; `now` models `time.time()` at commit
time and `elapsed_ms` the computed elapsed interval. -/
def generate_run (store : Store) (cid model_name : String) (frags : List String)
    (outcome : BackendOutcome) (now elapsed_ms : Nat) : List Payload × Store :=
  let emitted := frags.filter (fun c => c != "")
  let contentUnits := emitted.map Payload.content
  match outcome with
  | .fail e =>
      (Payload.metaStart cid model_name :: (contentUnits ++ [Payload.errorDone e]),
        store)
  | .ok =>
      let assistant_text := pyStrip (String.join emitted)
      let approx_tokens := emitted.foldl (fun acc c => acc + max 1 (c.length / 4)) 0
      let store' :=
        if assistant_text = "" then store
        else commit_assistant store cid assistant_text now
      (Payload.metaStart cid model_name ::
          (contentUnits ++ [Payload.doneMeta elapsed_ms approx_tokens cid]),
        store')

/-- Stated from the claim's words for C7 (to compare against the code's
`sanitize_chat_id`): remove exactly the characters outside `[A-Za-z0-9_-]`
(`Char.isAlphanum` is exactly ASCII `[A-Za-z0-9]`), truncate the result to
64 characters, and when the input strips to empty return the freshly
generated id instead. -/
def sanitize_spec (value : String) (fresh : String) : String :=
  let safe := value.toList.filter (fun c => c.isAlphanum || c == '-' || c == '_')
  if safe = [] then fresh else String.mk (safe.take 64)

/-- Stated from the claim's words for C6 (to compare against the code's
accumulator): the sum over each non-empty fragment of
`max(1, ceil(len(fragment)/4))`;  `(n + 3) / 4` is `⌈n/4⌉` on `Nat`. -/
def approx_tokens_spec (frags : List String) : Nat :=
  ((frags.filter (fun c => c != "")).map (fun c => max 1 ((c.length + 3) / 4))).sum

/-- No raw newline occurs in the string (so a `data: <payload>` line of the
wire format is a single line). -/
def no_newline (s : String) : Bool := s.toList.all (fun c => !(c == '\n'))

/-- A store holding exactly `MAX_SESSIONS` distinct sessions (used to
exhibit the commit-path insert exceeding the bound). -/
def store200 : Store := (List.range 200).map (fun i => (Nat.repr i, ⟨[], "", i⟩))

/-!  ## Theorems  -/

theorem starts_with_assistant_dropWhile (l : List Message) :
    starts_with_assistant
      (l.dropWhile (fun m => m.role == Role.assistant)) = false := by
  induction l with
  | nil => rfl
  | cons m t ih =>
      by_cases h : (m.role == Role.assistant) = true
      · simpa [List.dropWhile_cons, h] using ih
      · simp [List.dropWhile_cons, h, starts_with_assistant]

/-- C1 (counterexample): the claim says a trimmed history never begins with
an assistant message, but `trim_history` returns short histories (length at
most `MAX_HISTORY_MESSAGES`) unchanged, so a one-element history consisting
of a single assistant message still begins with an assistant message after
trimming. -/
theorem claim1_counterexample :
    trim_history [⟨Role.assistant, "x"⟩] = [⟨Role.assistant, "x"⟩] ∧
    starts_with_assistant (trim_history [⟨Role.assistant, "x"⟩]) = true := by
  constructor <;> rfl

/-- C1 (amended): after `trim_history` the history has length at most
`MAX_HISTORY_MESSAGES` (24) and is a suffix of the input (trimming removes
from the front only); and whenever the input was actually over the bound
(so trimming removed something), the result does not begin with an
assistant message.  Short histories are returned unchanged, so they may
still begin with an assistant message. -/
theorem claim1_trim_bound_suffix (msgs : List Message) :
    (trim_history msgs).length ≤ MAX_HISTORY_MESSAGES ∧
    trim_history msgs <:+ msgs ∧
    (MAX_HISTORY_MESSAGES < msgs.length →
      starts_with_assistant (trim_history msgs) = false) := by
  unfold trim_history
  by_cases h : msgs.length ≤ MAX_HISTORY_MESSAGES
  · rw [if_pos h]
    exact ⟨h, List.suffix_refl _, fun hlt => absurd h (not_le.mpr hlt)⟩
  · rw [if_neg h]
    refine ⟨?_, ?_, fun _ => starts_with_assistant_dropWhile _⟩
    · calc ((msgs.drop (msgs.length - MAX_HISTORY_MESSAGES)).dropWhile
            (fun m => m.role == Role.assistant)).length
          ≤ (msgs.drop (msgs.length - MAX_HISTORY_MESSAGES)).length :=
            (List.dropWhile_suffix _).length_le
        _ = msgs.length - (msgs.length - MAX_HISTORY_MESSAGES) :=
            List.length_drop _ _
        _ ≤ MAX_HISTORY_MESSAGES :=
            le_of_eq (Nat.sub_sub_self (le_of_not_le h))
    · exact (List.dropWhile_suffix _).trans (List.drop_suffix _ _)

/-- C1 (witness): the amended bound/suffix/no-leading-assistant statement at
a concrete 25-message history of assistant messages. -/
theorem claim1_trim_bound_suffix_witness :
    (trim_history (List.replicate 25 ⟨Role.assistant, "a"⟩)).length ≤
        MAX_HISTORY_MESSAGES ∧
    trim_history (List.replicate 25 ⟨Role.assistant, "a"⟩) <:+
        List.replicate 25 ⟨Role.assistant, "a"⟩ ∧
    (MAX_HISTORY_MESSAGES < (List.replicate 25 (⟨Role.assistant, "a"⟩ : Message)).length →
      starts_with_assistant
        (trim_history (List.replicate 25 ⟨Role.assistant, "a"⟩)) = false) :=
  claim1_trim_bound_suffix (List.replicate 25 ⟨Role.assistant, "a"⟩)

theorem generate_run_fail_eq (store : Store) (cid model : String)
    (frags : List String) (e : String) (now elapsed : Nat) :
    generate_run store cid model frags (BackendOutcome.fail e) now elapsed =
      (Payload.metaStart cid model ::
        ((frags.filter (fun c => c != "")).map Payload.content ++
          [Payload.errorDone e]), store) := rfl

theorem generate_run_ok_units (store : Store) (cid model : String)
    (frags : List String) (now elapsed : Nat) :
    (generate_run store cid model frags BackendOutcome.ok now elapsed).1 =
      Payload.metaStart cid model ::
        ((frags.filter (fun c => c != "")).map Payload.content ++
          [Payload.doneMeta elapsed
            ((frags.filter (fun c => c != "")).foldl
              (fun acc c => acc + max 1 (c.length / 4)) 0) cid]) := rfl

theorem regen_keeps_trailing_user (ms : List Message) (c : String) (ls : Nat)
    (hlast : ms.getLast? = some ⟨Role.user, c⟩) (hc : c ≠ "") :
    regen_or_append ⟨ms, c, ls⟩ "" true = (⟨ms, c, ls⟩, c) := by
  obtain ⟨ys, rfl⟩ := List.getLast?_eq_some_iff.mp hlast
  unfold regen_or_append
  simp [hc, List.getLast?_concat]

theorem regen_drops_trailing_assistant (ms : List Message) (c a : String) (ls : Nat)
    (hlast : ms.getLast? = some ⟨Role.user, c⟩) (hc : c ≠ "") :
    regen_or_append ⟨ms ++ [⟨Role.assistant, a⟩], c, ls⟩ "" true =
      (⟨ms, c, ls⟩, c) := by
  obtain ⟨ys, rfl⟩ := List.getLast?_eq_some_iff.mp hlast
  unfold regen_or_append
  simp [hc, List.getLast?_concat, List.dropLast_concat]

/-- C3: for a session whose history ends with a user turn — whose content,
as in every state the handlers produce, equals `last_user` and is
non-empty — the regenerate update with no new prompt text is the identity
on the session: the trailing user turn is not duplicated and running the
update twice in a row changes nothing; and running the update on the
session after an assistant reply was appended drops exactly that assistant
turn, so each regeneration's reply replaces the previous one instead of
accumulating. -/
theorem claim3_regenerate (s : Session) (c a : String)
    (hlast : s.messages.getLast? = some ⟨Role.user, c⟩)
    (hlu : s.last_user = c) (hc : c ≠ "") :
    regen_or_append s "" true = (s, c) ∧
    regen_or_append (regen_or_append s "" true).1 "" true = (s, c) ∧
    (regen_or_append
        { s with messages := s.messages ++ [⟨Role.assistant, a⟩] } "" true).1 =
      s := by
  obtain ⟨ms, lu, ls⟩ := s
  simp only at hlast hlu
  subst hlu
  have h1 := regen_keeps_trailing_user ms lu ls hlast hc
  refine ⟨h1, ?_, ?_⟩
  · rw [h1]
    exact h1
  · have h2 := regen_drops_trailing_assistant ms lu a ls hlast hc
    calc (regen_or_append { (⟨ms, lu, ls⟩ : Session) with
            messages := ms ++ [⟨Role.assistant, a⟩] } "" true).1
        = (regen_or_append ⟨ms ++ [⟨Role.assistant, a⟩], lu, ls⟩ "" true).1 :=
          rfl
      _ = (⟨ms, lu, ls⟩ : Session) := by rw [h2]

/-- C3 (witness): the regenerate identity and assistant-replacement at a
concrete one-user-turn session. -/
theorem claim3_regenerate_witness :
    regen_or_append ⟨[⟨Role.user, "hi"⟩], "hi", 0⟩ "" true =
        (⟨[⟨Role.user, "hi"⟩], "hi", 0⟩, "hi") ∧
    regen_or_append
        (regen_or_append ⟨[⟨Role.user, "hi"⟩], "hi", 0⟩ "" true).1 "" true =
      (⟨[⟨Role.user, "hi"⟩], "hi", 0⟩, "hi") ∧
    (regen_or_append ⟨[⟨Role.user, "hi"⟩, ⟨Role.assistant, "yo"⟩], "hi", 0⟩
        "" true).1 = ⟨[⟨Role.user, "hi"⟩], "hi", 0⟩ :=
  claim3_regenerate ⟨[⟨Role.user, "hi"⟩], "hi", 0⟩ "hi" "yo" rfl rfl (by decide)

/-- C5: when the backend raises after yielding the (all content-bearing)
fragments `frags`, the stream consists of the metadata unit, one content
unit per fragment in order, and exactly one error unit, and the store is
returned unchanged — no assistant turn, not even partial text, is
committed. -/
theorem claim5_backend_failure (store : Store) (cid model : String)
    (frags : List String) (e : String) (now elapsed : Nat)
    (h : ∀ f ∈ frags, f ≠ "") :
    generate_run store cid model frags (BackendOutcome.fail e) now elapsed =
      (Payload.metaStart cid model ::
        (frags.map Payload.content ++ [Payload.errorDone e]), store) := by
  have hf : frags.filter (fun c => c != "") = frags :=
    List.filter_eq_self.mpr (fun a ha => by simpa using h a ha)
  rw [generate_run_fail_eq, hf]

/-- C5 (witness): the failure-path stream shape at a concrete
two-fragment run. -/
theorem claim5_backend_failure_witness :
    generate_run [] "c1" "m1" ["ab", "cde"] (BackendOutcome.fail "boom") 3 4 =
      (Payload.metaStart "c1" "m1" ::
        ((["ab", "cde"] : List String).map Payload.content ++
          [Payload.errorDone "boom"]), []) :=
  claim5_backend_failure [] "c1" "m1" ["ab", "cde"] "boom" 3 4 (by decide)

/-- C6 (counterexample): on the single fragment `"aaaaa"` (length 5) the
code reports `max(1, 5 // 4) = 1` approximate tokens, while the claim's
ceiling formula gives `max(1, ⌈5/4⌉) = 2`. -/
theorem claim6_counterexample :
    (generate_run [] "c" "m" ["aaaaa"] BackendOutcome.ok 0 12).1.getLast? =
      some (Payload.doneMeta 12 1 "c") ∧
    approx_tokens_spec ["aaaaa"] = 2 ∧ (1 : Nat) ≠ 2 := by
  refine ⟨?_, by decide, by decide⟩
  rfl

/-- C6 (amended): the completion unit reports the sum over each non-empty
fragment of `max(1, len(fragment) // 4)` — floor division, not the
ceiling the claim states. -/
theorem claim6_approx_tokens (store : Store) (cid model : String)
    (frags : List String) (now elapsed : Nat) :
    (generate_run store cid model frags BackendOutcome.ok now elapsed).1.getLast? =
      some (Payload.doneMeta elapsed
        (((frags.filter (fun c => c != "")).map
          (fun c => max 1 (c.length / 4))).sum) cid) := by
  rw [generate_run_ok_units, ← List.cons_append, List.getLast?_concat]
  congr 2
  rw [List.sum_eq_foldl, List.foldl_map]

theorem lookup_set_session (st : Store) (cid : String) (s : Session)
    (hmem : st.any (fun it => it.1 == cid) = true) :
    lookup_session (set_session st cid s) cid = some s := by
  induction st with
  | nil => simp at hmem
  | cons a t ih =>
      by_cases hk : (a.1 == cid) = true
      · have hcons : set_session (a :: t) cid s = (a.1, s) :: set_session t cid s := by
          unfold set_session
          rw [List.map_cons, if_pos hk]
        rw [hcons]
        unfold lookup_session
        rw [show List.find? (fun it => it.1 == cid)
              ((a.1, s) :: set_session t cid s) = some (a.1, s) from
            List.find?_cons_of_pos _ hk]
        rfl
      · have hcons : set_session (a :: t) cid s = a :: set_session t cid s := by
          unfold set_session
          rw [List.map_cons, if_neg hk]
        rw [hcons]
        have ht : t.any (fun it => it.1 == cid) = true := by
          simpa [List.any_cons, hk] using hmem
        have hrec := ih ht
        unfold lookup_session at hrec ⊢
        rw [show List.find? (fun it => it.1 == cid)
              (a :: set_session t cid s) =
            List.find? (fun it => it.1 == cid) (set_session t cid s) from
            List.find?_cons_of_neg _ hk]
        exact hrec

theorem commit_assistant_fresh (store : Store) (cid text : String) (now : Nat)
    (hany : store.any (fun it => it.1 == cid) = false) :
    commit_assistant store cid text now =
      set_session (store ++ [(cid, fresh_session now)]) cid
        ⟨[⟨Role.assistant, text⟩], "", now⟩ := by
  have hfind : lookup_session (store ++ [(cid, fresh_session now)]) cid =
      some (fresh_session now) := by
    unfold lookup_session
    rw [List.find?_append]
    have h1 : store.find? (fun it => it.1 == cid) = none := by
      rw [List.find?_eq_none]
      intro x hx
      exact fun hb => absurd hb (by simpa using List.any_eq_false.mp hany x hx)
    rw [h1]
    simp [List.find?_cons]
  unfold commit_assistant setdefault_session
  rw [if_neg (by simp [hany])]
  simp only [hfind]
  rfl

/-- C10: if the chat id is absent from the store when the assistant reply
is committed (evicted or reset during the backend call), the commit
re-creates the session via the same get-or-create and appends the reply to
the fresh empty state, so the committed session's history is exactly the
one assistant message — a history that begins with an assistant turn. -/
theorem claim10_commit_recreates (store : Store) (cid text : String) (now : Nat)
    (h : ∀ p ∈ store, p.1 ≠ cid) :
    lookup_session (commit_assistant store cid text now) cid =
      some ⟨[⟨Role.assistant, text⟩], "", now⟩ ∧
    starts_with_assistant [⟨Role.assistant, text⟩] = true := by
  have hany : store.any (fun it => it.1 == cid) = false := by
    rw [List.any_eq_false]
    intro x hx
    simpa using h x hx
  rw [commit_assistant_fresh store cid text now hany]
  exact ⟨lookup_set_session _ cid _ (by simp), rfl⟩

/-- C10 (witness): committing `"hello"` for the absent id `"c1"` over a
store holding one unrelated session. -/
theorem claim10_commit_recreates_witness :
    lookup_session (commit_assistant [("other", ⟨[], "", 0⟩)] "c1" "hello" 9)
        "c1" = some ⟨[⟨Role.assistant, "hello"⟩], "", 9⟩ ∧
    starts_with_assistant [⟨Role.assistant, "hello"⟩] = true :=
  claim10_commit_recreates [("other", ⟨[], "", 0⟩)] "c1" "hello" 9 (by decide)

/-- C4 (counterexample): the claim says an empty-prompt request leaves the
session store unchanged, but the handler runs get-or-create before the
validation check: a request with `msg = ""`, `regenerate = false` and the
unknown id `"abc"` on the empty store is answered by the immediate error
unit with no backend call, yet the store has gained a session. -/
theorem claim4_counterexample :
    (handle_chat [] "abc" "FRESH" "normal" "" "" false 7).2 =
      ChatResult.noBackend [Payload.errorDone EMPTY_MSG] ∧
    (handle_chat [] "abc" "FRESH" "normal" "" "" false 7).1 =
      [("abc", ⟨[], "", 7⟩)] ∧
    ([] : Store) ≠ [("abc", (⟨[], "", 7⟩ : Session))] := by
  refine ⟨rfl, rfl, by decide⟩

/-- C4 (amended): whenever the effective prompt comes out empty, the
handler answers with exactly one error-and-terminal unit and never reaches
the backend call (`ChatResult.noBackend`); the store, however, is not left
unchanged in general — it is the store after the get-or-create,
`last_seen` refresh, eviction check and regenerate logic have already
run. -/
theorem claim4_empty_prompt (store : Store)
    (chat_id_raw fresh model_key_raw system_prompt_raw msg : String)
    (r : Bool) (now : Nat)
    (h : (stream_turn store (sanitize_chat_id chat_id_raw fresh)
        (normalize_text msg MAX_PROMPT_LENGTH) r now).2.2 = "") :
    handle_chat store chat_id_raw fresh model_key_raw system_prompt_raw msg
        r now =
      ((stream_turn store (sanitize_chat_id chat_id_raw fresh)
          (normalize_text msg MAX_PROMPT_LENGTH) r now).1,
        ChatResult.noBackend [Payload.errorDone EMPTY_MSG]) := by
  simp only [handle_chat]
  rw [if_pos h]

/-- C4 (witness): a regenerate request with no text on a session whose
history is a single assistant turn: the handler validates-out with the
error unit, and the store shows the assistant turn was dropped before
validation (the session is modified even though no backend call occurs). -/
theorem claim4_empty_prompt_witness :
    handle_chat [("s1", ⟨[⟨Role.assistant, "b"⟩], "", 1⟩)] "s1" "F" "" "" ""
        true 9 =
      ([("s1", ⟨[], "", 9⟩)], ChatResult.noBackend [Payload.errorDone EMPTY_MSG]) :=
  claim4_empty_prompt [("s1", ⟨[⟨Role.assistant, "b"⟩], "", 1⟩)] "s1" "F" ""
    "" "" true 9 rfl

theorem py_isalnum_ascii (c : Char) (h : c.toNat < 128) :
    py_isalnum c = c.isAlphanum := by
  unfold py_isalnum
  have hne : (c == 'é') = false := by
    cases hb : c == 'é'
    · rfl
    · exfalso
      have : c = 'é' := by simpa using hb
      subst this
      simp at h
  rw [hne, Bool.or_false]

theorem filter_dropWhile_eq (p q : Char → Bool) (l : List Char)
    (h : ∀ c, q c = true → p c = false) :
    (l.dropWhile q).filter p = l.filter p := by
  induction l with
  | nil => rfl
  | cons a t ih =>
      by_cases hq : q a = true
      · rw [List.dropWhile_cons, if_pos hq, ih, List.filter_cons, h a hq]
        simp
      · rw [List.dropWhile_cons, if_neg hq]

theorem filter_pyStripList (p : Char → Bool) (l : List Char)
    (h : ∀ c, c.isWhitespace = true → p c = false) :
    (pyStripList l).filter p = l.filter p := by
  unfold pyStripList
  rw [List.filter_reverse, filter_dropWhile_eq _ _ _ h, List.filter_reverse,
    List.reverse_reverse, filter_dropWhile_eq _ _ _ h]

theorem ws_fails_code_pred (c : Char) (h : c.isWhitespace = true) :
    (py_isalnum c || c == '-' || c == '_') = false := by
  have h' : ((c = ' ' ∨ c = '\t') ∨ c = '\x0d') ∨ c = '\n' := by
    simpa [Char.isWhitespace] using h
  rcases h' with ((rfl | rfl) | rfl) | rfl <;> decide

/-- C7 (counterexample): CPython's `str.isalnum` is Unicode-aware, so
`sanitize_chat_id` keeps `'é'` — a character outside `[A-Za-z0-9_-]` that
the claim says is removed.  The claim's own rule (`sanitize_spec`) would
strip `"é"` to empty and return the fresh id instead. -/
theorem claim7_counterexample :
    sanitize_chat_id "é" "0f0e0d" = "é" ∧
    sanitize_spec "é" "0f0e0d" = "0f0e0d" ∧ ("é" : String) ≠ "0f0e0d" := by
  refine ⟨rfl, rfl, by decide⟩

/-- C7 (amended): on ASCII inputs — which is where the claim's character
class `[A-Za-z0-9_-]` and Python's Unicode `isalnum` agree —
`sanitize_chat_id` behaves exactly as the claim states: it removes exactly
the characters outside `[A-Za-z0-9_-]`, truncates to 64 characters, and an
input that sanitizes to empty yields the freshly generated id.  On
non-ASCII input the code keeps every Unicode alphanumeric character
instead. -/
theorem claim7_sanitize_ascii (value fresh : String)
    (h : ∀ c ∈ value.toList, c.toNat < 128) :
    sanitize_chat_id value fresh = sanitize_spec value fresh := by
  have key : (pyStripList value.toList).filter
        (fun c => py_isalnum c || c == '-' || c == '_') =
      value.toList.filter (fun c => c.isAlphanum || c == '-' || c == '_') := by
    rw [filter_pyStripList _ _ ws_fails_code_pred]
    exact List.filter_congr (fun c hc => by rw [py_isalnum_ascii c (h c hc)])
  unfold sanitize_chat_id sanitize_spec pyStrip
  by_cases h1 : pyStripList value.toList = []
  · rw [h1] at key ⊢
    rw [if_pos rfl]
    have hempty : value.toList.filter
        (fun c => c.isAlphanum || c == '-' || c == '_') = [] := by
      rw [← key]
      rfl
    rw [hempty]
    rfl
  · have hne : String.mk (pyStripList value.toList) ≠ "" := by
      intro he
      exact h1 (by simpa [String.ext_iff] using he)
    rw [if_neg hne]
    by_cases h2 : (pyStripList value.toList).filter
        (fun c => py_isalnum c || c == '-' || c == '_') = []
    · rw [show (String.mk (pyStripList value.toList)).toList =
          pyStripList value.toList from rfl, h2, ← key, h2]
      rfl
    · rw [show (String.mk (pyStripList value.toList)).toList =
          pyStripList value.toList from rfl]
      rw [← key]
      have hne2 : String.mk ((pyStripList value.toList).filter
          (fun c => py_isalnum c || c == '-' || c == '_')) ≠ "" := by
        intro he
        exact h2 (by simpa [String.ext_iff] using he)
      rw [if_neg hne2]
      rcases hcase : (pyStripList value.toList).filter
          (fun c => py_isalnum c || c == '-' || c == '_') with _ | ⟨a, t⟩
      · exact absurd hcase h2
      · rfl

/-- C7 (witness): the amended agreement at the concrete ASCII input
`" a b!c_- "` (whitespace and `!` removed, `_` and `-` kept). -/
theorem claim7_sanitize_ascii_witness :
    sanitize_chat_id " a b!c_- " "FRESH" = sanitize_spec " a b!c_- " "FRESH" :=
  claim7_sanitize_ascii " a b!c_- " "FRESH" (by decide)

theorem key_inj (l : Store) (h : l.Pairwise (fun a b => a.1 ≠ b.1)) :
    ∀ p ∈ l, ∀ q ∈ l, p.1 = q.1 → p = q := by
  induction l with
  | nil => intro p hp; cases hp
  | cons a t ih =>
      rcases List.pairwise_cons.mp h with ⟨ha, ht⟩
      intro p hp q hq he
      rcases List.mem_cons.mp hp with rfl | hp'
      · rcases List.mem_cons.mp hq with rfl | hq'
        · rfl
        · exact absurd he (ha q hq')
      · rcases List.mem_cons.mp hq with rfl | hq'
        · exact absurd he.symm (ha p hp')
        · exact ih ht p hp' q hq' he

theorem eraseP_key_eq_filter (st : Store) (cid : String)
    (h : (st.map Prod.fst).Nodup) :
    erase_session st cid = st.filter (fun it => !(it.1 == cid)) := by
  induction st with
  | nil => rfl
  | cons a t ih =>
      rw [List.map_cons, List.nodup_cons] at h
      obtain ⟨hnot, ht⟩ := h
      unfold erase_session at ih ⊢
      rw [List.eraseP_cons]
      by_cases hk : (a.1 == cid) = true
      · rw [hk]
        simp only [cond_true]
        rw [List.filter_cons, if_neg (by simp [hk])]
        symm
        apply List.filter_eq_self.mpr
        intro b hb
        have hbk : b.1 ≠ cid := by
          intro he
          apply hnot
          have hac : a.1 = cid := by simpa using hk
          rw [hac, ← he]
          exact List.mem_map.mpr ⟨b, hb, rfl⟩
        simpa using hbk
      · rw [show (a.1 == cid) = false from by simpa using hk]
        simp only [cond_false]
        rw [List.filter_cons, if_pos (by simpa using hk)]
        rw [ih ht]

theorem foldl_erase_eq_filter (ds : List String) (st : Store)
    (h : (st.map Prod.fst).Nodup) :
    ds.foldl erase_session st = st.filter (fun it => !(ds.contains it.1)) := by
  induction ds generalizing st with
  | nil =>
      symm
      apply List.filter_eq_self.mpr
      intro b hb
      rfl
  | cons d ds ih =>
      rw [List.foldl_cons]
      rw [show erase_session st d = st.filter (fun it => !(it.1 == d)) from
        eraseP_key_eq_filter st d h]
      have h2 : ((st.filter (fun it => !(it.1 == d))).map Prod.fst).Nodup :=
        List.Nodup.sublist ((List.filter_sublist st).map Prod.fst) h
      rw [ih _ h2, List.filter_filter]
      apply List.filter_congr
      intro x hx
      simp only [List.contains_cons, Bool.not_or]
      rw [Bool.and_comm]

theorem session_le_trans (a b c : String × Session)
    (hab : session_le a b = true) (hbc : session_le b c = true) :
    session_le a c = true := by
  simp only [session_le, decide_eq_true_eq] at *
  omega

theorem session_le_total (a b : String × Session) :
    (session_le a b || session_le b a) = true := by
  simp only [session_le]
  rcases Nat.le_total a.2.last_seen b.2.last_seen with h | h
  · simp [h]
  · simp [h]

theorem cleanup_length_le (st : Store) (h : (st.map Prod.fst).Nodup) :
    (cleanup_sessions_unlocked st).length ≤ MAX_SESSIONS := by
  unfold cleanup_sessions_unlocked
  by_cases hlen : st.length ≤ MAX_SESSIONS
  · rw [if_pos hlen]
    exact hlen
  · rw [if_neg hlen]
    show (List.foldl erase_session st
        (((st.mergeSort session_le).take (st.length - MAX_SESSIONS)).map
          Prod.fst)).length ≤ MAX_SESSIONS
    rw [foldl_erase_eq_filter _ _ h]
    set ds := ((st.mergeSort session_le).take (st.length - MAX_SESSIONS)).map
      Prod.fst with hds
    have hperm : (st.mergeSort session_le).Perm st :=
      List.mergeSort_perm st session_le
    have hlf : (st.filter (fun it => !(ds.contains it.1))).length =
        ((st.mergeSort session_le).filter
          (fun it => !(ds.contains it.1))).length :=
      ((hperm.filter _).length_eq).symm
    rw [hlf]
    conv_lhs =>
      rw [← List.take_append_drop (st.length - MAX_SESSIONS)
        (st.mergeSort session_le)]
    rw [List.filter_append, List.length_append]
    have htake : ((st.mergeSort session_le).take
        (st.length - MAX_SESSIONS)).filter
          (fun it => !(ds.contains it.1)) = [] := by
      apply List.filter_eq_nil_iff.mpr
      intro a ha
      have hc : ds.contains a.1 = true := by
        rw [hds]
        exact List.elem_iff.mpr (List.mem_map.mpr ⟨a, ha, rfl⟩)
      rw [hc]
      simp
    rw [htake]
    simp only [List.length_nil, Nat.zero_add]
    calc (((st.mergeSort session_le).drop (st.length - MAX_SESSIONS)).filter
            _).length
        ≤ ((st.mergeSort session_le).drop
            (st.length - MAX_SESSIONS)).length := List.length_filter_le _ _
      _ = (st.mergeSort session_le).length - (st.length - MAX_SESSIONS) :=
          List.length_drop _ _
      _ = st.length - (st.length - MAX_SESSIONS) := by rw [hperm.length_eq]
      _ = MAX_SESSIONS := Nat.sub_sub_self (le_of_lt (lt_of_not_le hlen))

theorem cleanup_minimality (st : Store) (h : (st.map Prod.fst).Nodup) :
    ∀ p ∈ st, p ∉ cleanup_sessions_unlocked st →
      ∀ q ∈ cleanup_sessions_unlocked st, p.2.last_seen ≤ q.2.last_seen := by
  unfold cleanup_sessions_unlocked
  by_cases hlen : st.length ≤ MAX_SESSIONS
  · rw [if_pos hlen]
    intro p hp hnp
    exact absurd hp hnp
  · rw [if_neg hlen]
    show ∀ p ∈ st, p ∉ List.foldl erase_session st
        (((st.mergeSort session_le).take (st.length - MAX_SESSIONS)).map
          Prod.fst) → _
    rw [foldl_erase_eq_filter _ _ h]
    intro p hp hnp q hq
    have hperm : (st.mergeSort session_le).Perm st :=
      List.mergeSort_perm st session_le
    have hpair : (st.mergeSort session_le).Pairwise
        (fun a b => session_le a b = true) :=
      List.sorted_mergeSort session_le_trans session_le_total st
    have hpc : p.1 ∈ ((st.mergeSort session_le).take
        (st.length - MAX_SESSIONS)).map Prod.fst := by
      by_contra hcon
      apply hnp
      rw [List.mem_filter]
      refine ⟨hp, ?_⟩
      cases hb : (((st.mergeSort session_le).take
          (st.length - MAX_SESSIONS)).map Prod.fst).contains p.1
      · rfl
      · exact absurd (List.elem_iff.mp hb) hcon
    obtain ⟨e, he_take, he1⟩ := List.mem_map.mp hpc
    have he_sorted : e ∈ st.mergeSort session_le :=
      List.take_subset _ _ he_take
    have hp_sorted : p ∈ st.mergeSort session_le := hperm.mem_iff.mpr hp
    have hsnodup : ((st.mergeSort session_le).map Prod.fst).Nodup :=
      ((hperm.map Prod.fst).symm).nodup h
    have hep : e = p :=
      key_inj _ (List.pairwise_map.mp hsnodup) e he_sorted p hp_sorted he1
    have hp_take : p ∈ (st.mergeSort session_le).take
        (st.length - MAX_SESSIONS) := hep ▸ he_take
    rw [List.mem_filter] at hq
    obtain ⟨hq_st, hq_P⟩ := hq
    have hq_sorted : q ∈ st.mergeSort session_le := hperm.mem_iff.mpr hq_st
    have hq_drop : q ∈ (st.mergeSort session_le).drop
        (st.length - MAX_SESSIONS) := by
      have hsplit : q ∈ (st.mergeSort session_le).take
            (st.length - MAX_SESSIONS) ++
          (st.mergeSort session_le).drop (st.length - MAX_SESSIONS) := by
        rw [List.take_append_drop]
        exact hq_sorted
      rcases List.mem_append.mp hsplit with hqt | hqd
      · exfalso
        have hqm : q.1 ∈ ((st.mergeSort session_le).take
            (st.length - MAX_SESSIONS)).map Prod.fst :=
          List.mem_map.mpr ⟨q, hqt, rfl⟩
        rw [show (((st.mergeSort session_le).take
            (st.length - MAX_SESSIONS)).map Prod.fst).contains q.1 = true from
          List.elem_iff.mpr hqm] at hq_P
        simp at hq_P
      · exact hqd
    have hpair2 : ((st.mergeSort session_le).take (st.length - MAX_SESSIONS) ++
        (st.mergeSort session_le).drop (st.length - MAX_SESSIONS)).Pairwise
          (fun a b => session_le a b = true) := by
      rw [List.take_append_drop]
      exact hpair
    obtain ⟨-, -, hcross⟩ := List.pairwise_append.mp hpair2
    have hle := hcross p hp_take q hq_drop
    simpa [session_le] using hle

theorem length_set_session (st : Store) (cid : String) (s : Session) :
    (set_session st cid s).length = st.length := by
  unfold set_session
  exact List.length_map _ _

theorem map_fst_set_session (st : Store) (cid : String) (s : Session) :
    (set_session st cid s).map Prod.fst = st.map Prod.fst := by
  induction st with
  | nil => rfl
  | cons a t ih =>
      unfold set_session at ih ⊢
      calc List.map Prod.fst
            (List.map (fun it => if it.1 == cid then (it.1, s) else it) (a :: t))
          = (if a.1 == cid then (a.1, s) else a).1 ::
              List.map Prod.fst
                (List.map (fun it => if it.1 == cid then (it.1, s) else it) t) :=
            rfl
        _ = a.1 :: List.map Prod.fst t := by
            rw [ih]
            congr 1
            by_cases hk : (a.1 == cid) = true
            · rw [if_pos hk]
            · rw [if_neg hk]
        _ = List.map Prod.fst (a :: t) := rfl

theorem nodup_keys_setdefault (st : Store) (cid : String) (now : Nat)
    (h : (st.map Prod.fst).Nodup) :
    ((setdefault_session st cid now).map Prod.fst).Nodup := by
  unfold setdefault_session
  by_cases hk : st.any (fun it => it.1 == cid) = true
  · rw [if_pos hk]
    exact h
  · rw [if_neg hk]
    rw [List.map_append]
    rw [List.nodup_append]
    refine ⟨h, by simp, ?_⟩
    intro a ha hb
    have ha' : a = cid := by simpa using hb
    obtain ⟨x, hx, hx1⟩ := List.mem_map.mp ha
    have hany : st.any (fun it => it.1 == cid) = false := by
      cases hb2 : st.any (fun it => it.1 == cid)
      · rfl
      · exact absurd hb2 hk
    exact (List.any_eq_false.mp hany x hx) (by simp [hx1, ha'])

theorem stream_turn_store_shape (store : Store) (cid prompt0 : String)
    (r : Bool) (now : Nat) :
    ∃ s : Session, (stream_turn store cid prompt0 r now).1 =
      set_session (cleanup_sessions_unlocked (set_session
        (setdefault_session store cid now) cid
        { ((lookup_session (setdefault_session store cid now) cid).getD
            (fresh_session now)) with last_seen := now })) cid s :=
  ⟨_, rfl⟩

/-- C2 (counterexample): the claim covers the post-stream assistant-commit
path as an insert, but the commit block of `generate()` runs no eviction
check: committing a reply for an id that is absent from a store already
holding `MAX_SESSIONS` (200) sessions re-inserts the session and leaves
the store at 201 entries. -/
theorem claim2_counterexample :
    store200.length = MAX_SESSIONS ∧
    (commit_assistant store200 "x" "hi" 1000).length = MAX_SESSIONS + 1 := by
  constructor
  · rfl
  · rfl

/-- C2 (amended): on the per-request get-or-create path — the only insert
path that runs `cleanup_sessions_unlocked` — the bound holds: after any
`stream_turn` the store has at most `MAX_SESSIONS` (200) entries (given
the store's keys are distinct, as Python dict keys are), and whenever the
eviction check removes sessions, every evicted session has a `last_seen`
no larger than that of every retained session.  The commit path
(`commit_assistant`) runs no eviction check and can exceed the bound. -/
theorem claim2_store_bound (store : Store) (cid prompt0 : String) (r : Bool)
    (now : Nat) (h : (store.map Prod.fst).Nodup) :
    (cleanup_sessions_unlocked store).length ≤ MAX_SESSIONS ∧
    (∀ p ∈ store, p ∉ cleanup_sessions_unlocked store →
      ∀ q ∈ cleanup_sessions_unlocked store, p.2.last_seen ≤ q.2.last_seen) ∧
    (stream_turn store cid prompt0 r now).1.length ≤ MAX_SESSIONS := by
  refine ⟨cleanup_length_le store h, cleanup_minimality store h, ?_⟩
  obtain ⟨s, hs⟩ := stream_turn_store_shape store cid prompt0 r now
  rw [hs, length_set_session]
  apply cleanup_length_le
  rw [map_fst_set_session]
  exact nodup_keys_setdefault store cid now h

/-- C2 (witness): the amended bound and eviction minimality at a concrete
two-session store and one request-path insert. -/
theorem claim2_store_bound_witness :
    (cleanup_sessions_unlocked
      [("a", ⟨[], "", 3⟩), ("b", ⟨[], "", 1⟩)]).length ≤ MAX_SESSIONS ∧
    (∀ p ∈ ([("a", ⟨[], "", 3⟩), ("b", ⟨[], "", 1⟩)] : Store),
      p ∉ cleanup_sessions_unlocked [("a", ⟨[], "", 3⟩), ("b", ⟨[], "", 1⟩)] →
      ∀ q ∈ cleanup_sessions_unlocked [("a", ⟨[], "", 3⟩), ("b", ⟨[], "", 1⟩)],
        p.2.last_seen ≤ q.2.last_seen) ∧
    (stream_turn [("a", ⟨[], "", 3⟩), ("b", ⟨[], "", 1⟩)] "c" "hey" false
        9).1.length ≤ MAX_SESSIONS :=
  claim2_store_bound [("a", ⟨[], "", 3⟩), ("b", ⟨[], "", 1⟩)] "c" "hey" false 9
    (by decide)

theorem digitChar_ne_newline : ∀ n : Nat, Nat.digitChar n ≠ '\n'
  | 0 => by decide
  | 1 => by decide
  | 2 => by decide
  | 3 => by decide
  | 4 => by decide
  | 5 => by decide
  | 6 => by decide
  | 7 => by decide
  | 8 => by decide
  | 9 => by decide
  | 10 => by decide
  | 11 => by decide
  | 12 => by decide
  | 13 => by decide
  | 14 => by decide
  | 15 => by decide
  | (_ + 16) => (by decide : ('*' : Char) ≠ '\n')

theorem toDigitsCore_ne_newline (b : Nat) (fuel : Nat) :
    ∀ (n : Nat) (ds : List Char), (∀ c ∈ ds, c ≠ '\n') →
      ∀ c ∈ Nat.toDigitsCore b fuel n ds, c ≠ '\n' := by
  induction fuel with
  | zero =>
      intro n ds hds c hc
      exact hds c (by simpa [Nat.toDigitsCore] using hc)
  | succ f ih =>
      intro n ds hds c hc
      simp only [Nat.toDigitsCore] at hc
      have hcons : ∀ c' ∈ Nat.digitChar (n % b) :: ds, c' ≠ '\n' := by
        intro c' hc'
        rcases List.mem_cons.mp hc' with rfl | hm
        · exact digitChar_ne_newline _
        · exact hds c' hm
      by_cases hz : n / b = 0
      · rw [if_pos hz] at hc
        exact hcons c hc
      · rw [if_neg hz] at hc
        exact ih (n / b) (Nat.digitChar (n % b) :: ds) hcons c hc

theorem repr_ne_newline (n : Nat) : ∀ c ∈ (Nat.repr n).toList, c ≠ '\n' := by
  intro c hc
  have hc' : c ∈ Nat.toDigitsCore 10 (n + 1) n [] := by
    simpa [Nat.repr, Nat.toDigits, List.asString] using hc
  exact toDigitsCore_ne_newline 10 (n + 1) n []
    (fun c' hm => absurd hm (List.not_mem_nil c')) c hc'

theorem jsonEscapeChar_ne_newline (c : Char) : ∀ d ∈ jsonEscapeChar c, d ≠ '\n' := by
  intro d hd
  unfold jsonEscapeChar at hd
  repeat' split at hd
  all_goals simp at hd
  all_goals first
    | (rcases hd with rfl | rfl <;> decide)
    | (rcases hd with rfl | rfl | rfl | rfl | rfl
       · decide
       · decide
       · decide
       · exact digitChar_ne_newline _
       · exact digitChar_ne_newline _)
    | (subst hd; assumption)

theorem jsonString_ne_newline (s : String) :
    ∀ d ∈ (jsonString s).toList, d ≠ '\n' := by
  intro d hd
  have hd' : d ∈ ('"' :: ((s.toList.map jsonEscapeChar).flatten ++ ['"'])) := by
    simpa [jsonString, String.toList, String.data_append] using hd
  rcases List.mem_cons.mp hd' with rfl | hd2
  · decide
  · rcases List.mem_append.mp hd2 with hflat | hquote
    · obtain ⟨l, hl, hdl⟩ := List.mem_flatten.mp hflat
      obtain ⟨c, _, rfl⟩ := List.mem_map.mp hl
      exact jsonEscapeChar_ne_newline c d hdl
    · have : d = '"' := by simpa using hquote
      subst this
      decide

theorem no_newline_iff (s : String) :
    no_newline s = true ↔ ∀ c ∈ s.toList, c ≠ '\n' := by
  unfold no_newline
  rw [List.all_eq_true]
  constructor
  · intro h c hc he
    subst he
    simpa using h _ hc
  · intro h c hc
    simpa using h c hc

theorem no_newline_append (a b : String) (ha : no_newline a = true)
    (hb : no_newline b = true) : no_newline (a ++ b) = true := by
  rw [no_newline_iff] at *
  intro c hc
  rcases List.mem_append.mp
      (by simpa [String.toList, String.data_append] using hc) with h | h
  · exact ha c h
  · exact hb c h

theorem no_newline_jsonString (s : String) : no_newline (jsonString s) = true := by
  rw [no_newline_iff]
  exact jsonString_ne_newline s

theorem no_newline_repr (n : Nat) : no_newline (Nat.repr n) = true := by
  rw [no_newline_iff]
  exact repr_ne_newline n

theorem renderPayload_no_newline (p : Payload) :
    no_newline (renderPayload p) = true := by
  cases p
  all_goals unfold renderPayload
  all_goals
    repeat' first
      | exact no_newline_jsonString _
      | exact no_newline_repr _
      | (first | decide | apply no_newline_append)

theorem generate_run_units_shape (store : Store) (cid model : String)
    (frags : List String) (outcome : BackendOutcome) (now elapsed : Nat) :
    ∃ t, hasDone t = true ∧
      (generate_run store cid model frags outcome now elapsed).1 =
        Payload.metaStart cid model ::
          ((frags.filter (fun c => c != "")).map Payload.content ++ [t]) := by
  cases outcome with
  | ok =>
      exact ⟨Payload.doneMeta elapsed
        ((frags.filter (fun c => c != "")).foldl
          (fun (acc : Nat) (c : String) => acc + max 1 (c.length / 4)) 0) cid,
        rfl, rfl⟩
  | fail e => exact ⟨Payload.errorDone e, rfl, rfl⟩

/-- C8 (counterexample): the claim says `done` co-occurs only with `meta`,
but the terminal error unit of the source carries `error` together with
`done` and no `meta`: a failing backend call emits exactly such a unit. -/
theorem claim8_counterexample :
    (generate_run [] "c" "m" [] (BackendOutcome.fail "boom") 0 0).1 =
      [Payload.metaStart "c" "m", Payload.errorDone "boom"] ∧
    hasDone (Payload.errorDone "boom") = true ∧
    hasMeta (Payload.errorDone "boom") = false :=
  ⟨rfl, rfl, rfl⟩

/-- C8 (amended): every unit is framed as a single `data: <JSON>` event
followed by a blank line (the rendered JSON contains no raw newline), each
payload populates at most one of the kind keys `content` / `meta` /
`error`, and `done` appears only on the terminal unit — co-occurring with
`meta` on the completion unit or with `error` on the error unit. -/
theorem claim8_wire_format (store : Store) (cid model : String)
    (frags : List String) (outcome : BackendOutcome) (now elapsed : Nat) :
    (∀ p : Payload, kind_count p ≤ 1 ∧
      (hasDone p = true → (hasMeta p || hasError p) = true) ∧
      sse p = "data: " ++ renderPayload p ++ "\n\n" ∧
      no_newline (renderPayload p) = true) ∧
    (∀ u ∈ ((generate_run store cid model frags outcome now elapsed).1).dropLast,
      hasDone u = false) ∧
    (∃ t, ((generate_run store cid model frags outcome now elapsed).1).getLast? =
      some t ∧ hasDone t = true) := by
  refine ⟨?_, ?_, ?_⟩
  · intro p
    refine ⟨?_, ?_, rfl, renderPayload_no_newline p⟩
    · cases p <;> exact Nat.le_refl 1
    · cases p <;> simp [hasDone, hasMeta, hasError]
  · obtain ⟨t, ht, hsh⟩ :=
      generate_run_units_shape store cid model frags outcome now elapsed
    rw [hsh]
    rw [show Payload.metaStart cid model ::
          ((frags.filter (fun c => c != "")).map Payload.content ++ [t]) =
        (Payload.metaStart cid model ::
          (frags.filter (fun c => c != "")).map Payload.content) ++ [t] from
        rfl]
    rw [List.dropLast_concat]
    intro u hu
    rcases List.mem_cons.mp hu with rfl | hu'
    · rfl
    · obtain ⟨f, _, rfl⟩ := List.mem_map.mp hu'
      rfl
  · obtain ⟨t, ht, hsh⟩ :=
      generate_run_units_shape store cid model frags outcome now elapsed
    refine ⟨t, ?_, ht⟩
    rw [hsh, ← List.cons_append, List.getLast?_concat]

/-- C9 (counterexample): the claim says a plain comment line follows the
terminal unit, but the source yields only `sse(...)` events: the complete
wire output of a failing run is two `data:` events, the last one being the
terminal error event — no comment line is ever emitted. -/
theorem claim9_counterexample :
    ((generate_run [] "c" "m" [] (BackendOutcome.fail "boom") 0 0).1).map sse =
      [sse (Payload.metaStart "c" "m"), sse (Payload.errorDone "boom")] ∧
    (((generate_run [] "c" "m" [] (BackendOutcome.fail "boom") 0 0).1).map
        sse).getLast? =
      some ("data: " ++ renderPayload (Payload.errorDone "boom") ++ "\n\n") :=
  ⟨rfl, rfl⟩

/-- C9 (amended): every chunk the stream emits is a `data:` event, and the
stream ends with the terminal unit's event: nothing — in particular no
comment line — follows the terminal unit. -/
theorem claim9_stream_end (store : Store) (cid model : String)
    (frags : List String) (outcome : BackendOutcome) (now elapsed : Nat) :
    (∀ s ∈ ((generate_run store cid model frags outcome now elapsed).1).map sse,
      ∃ r, s = "data: " ++ r) ∧
    (∃ t, hasDone t = true ∧
      (((generate_run store cid model frags outcome now elapsed).1).map
          sse).getLast? =
        some ("data: " ++ (renderPayload t ++ "\n\n"))) := by
  constructor
  · intro s hs
    obtain ⟨p, hp, rfl⟩ := List.mem_map.mp hs
    exact ⟨renderPayload p ++ "\n\n", by unfold sse; rw [String.append_assoc]⟩
  · obtain ⟨t, ht, hsh⟩ :=
      generate_run_units_shape store cid model frags outcome now elapsed
    refine ⟨t, ht, ?_⟩
    rw [hsh]
    rw [show Payload.metaStart cid model ::
          ((frags.filter (fun c => c != "")).map Payload.content ++ [t]) =
        (Payload.metaStart cid model ::
          (frags.filter (fun c => c != "")).map Payload.content) ++ [t] from
        rfl]
    rw [List.map_append, List.map_singleton, List.getLast?_concat]
    rw [show sse t = "data: " ++ (renderPayload t ++ "\n\n") from by
      unfold sse; rw [String.append_assoc]]

/-- C8 (witness): the amended framing statement at a concrete successful
one-fragment run. -/
theorem claim8_wire_format_witness :
    (∀ p : Payload, kind_count p ≤ 1 ∧
      (hasDone p = true → (hasMeta p || hasError p) = true) ∧
      sse p = "data: " ++ renderPayload p ++ "\n\n" ∧
      no_newline (renderPayload p) = true) ∧
    (∀ u ∈ ((generate_run [] "c" "m" ["hi"] BackendOutcome.ok 0 1).1).dropLast,
      hasDone u = false) ∧
    (∃ t, ((generate_run [] "c" "m" ["hi"] BackendOutcome.ok 0 1).1).getLast? =
      some t ∧ hasDone t = true) :=
  claim8_wire_format [] "c" "m" ["hi"] BackendOutcome.ok 0 1

/-- C9 (witness): the amended stream-end statement at a concrete failing
run. -/
theorem claim9_stream_end_witness :
    (∀ s ∈ ((generate_run [] "c" "m" ["hi"]
        (BackendOutcome.fail "boom") 0 1).1).map sse, ∃ r, s = "data: " ++ r) ∧
    (∃ t, hasDone t = true ∧
      (((generate_run [] "c" "m" ["hi"]
          (BackendOutcome.fail "boom") 0 1).1).map sse).getLast? =
        some ("data: " ++ (renderPayload t ++ "\n\n"))) :=
  claim9_stream_end [] "c" "m" ["hi"] (BackendOutcome.fail "boom") 0 1

end Cleverly
